import Mathlib

/-!
Verification development for the pfvault repository: a local, single-user
encrypted personal-finance vault (single React source file).  The pure logic
of the source is embedded shallowly; the browser collaborators that the
source calls (WebCrypto: PBKDF2 deriveBits, AES-GCM encrypt/decrypt, SHA-256,
getRandomValues; base64 btoa/atob; JSON stringify/parse; TextEncoder) are
modelled as fields of an abstract environment `CryptoEnv`, and the laws those
collaborators satisfy (base64 round-trip, AEAD round-trip, byte-valued
randomness) appear as explicit hypotheses, bundled in `EnvSound`.
-/

namespace PFVault

/-- String literals of the source, bound once so they can be reused in
statements and concrete inputs. -/
def emptyString : String := ""

def strBDT : String := "BDT"

def strLogin : String := "login"

def strSetup : String := "setup"

def strEntryAdd : String := "entry:add"

def strEntryDelete : String := "entry:delete"

def strCategoryDelete : String := "category:delete"

def errFillAll : String := "Please fill all required fields."

def errPwMismatch : String := "Passwords do not match."

def errQasRequired : String := "Please provide all 5 questions and answers."

def errInvalidPassword : String := "Invalid password."

def errAnswersIncorrect : String := "One or more answers are incorrect."

def errDecryptFailed : String := "Failed to decrypt."

/-- Bytes are modelled as lists of naturals; the source's ArrayBuffers hold
values below 256, carried as a side condition where it matters. -/
abbrev Bytes := List Nat

/-- Category record of the payload (source interface Category).  Amounts are
carried opaquely as integers; no claim computes with them. -/
structure Category where
  id : String
  name : String
  amount : Int
  currency : Option String
  remarks : Option String
deriving DecidableEq, Repr

/-- Entry record of the payload (source interface Entry). -/
structure Entry where
  id : String
  categoryId : String
  amount : Int
  dateISO : String
deriving DecidableEq, Repr

/-- Currency record of the payload (source interface Currency). -/
structure Currency where
  code : String
  rate : Int
deriving DecidableEq, Repr

/-- History record of the payload (source interface HistoryItem; the
`category:delete` records additionally carry removedEntriesCount). -/
structure HistoryItem where
  id : String
  ts : String
  type : String
  entry : Option Entry
  category : Option Category
  removedEntriesCount : Option Nat
deriving DecidableEq, Repr

/-- The decrypted payload held in memory while unlocked. -/
structure Payload where
  categories : List Category
  entries : List Entry
  currencies : List Currency
  baseCurrency : String
  history : List HistoryItem
deriving DecidableEq, Repr

/-- One stored security question of the auth block. -/
structure QA where
  q : String
  saltB64 : String
  hashB64 : String
deriving DecidableEq, Repr

/-- auth block of the persisted record. -/
structure AuthBlock where
  saltPwdHex : String
  verifierHex : String
  qas : List QA
deriving DecidableEq, Repr

/-- enc block of the persisted record. -/
structure EncBlock where
  saltEncHex : String
  ivB64 : String
  ciphertextB64 : String
deriving DecidableEq, Repr

/-- user block of the persisted record. -/
structure UserBlock where
  firstName : String
deriving DecidableEq, Repr

/-- The persisted VaultState record (localStorage key PF_E2EE_V1). -/
structure VaultState where
  version : Nat
  user : UserBlock
  auth : AuthBlock
  enc : EncBlock
deriving DecidableEq, Repr

/-- The external browser collaborators the source calls, as an abstract
environment: WebCrypto primitives, base64, JSON and UTF-8 codecs, and the
availability flags the source tests with typeof window / window.crypto. -/
structure CryptoEnv where
  windowAvailable : Bool
  cryptoAvailable : Bool
  getRandomValues : Nat → Bytes
  deriveBits : String → Bytes → Nat → Nat → Bytes
  subtleEncrypt : Bytes → Bytes → Bytes → Bytes
  subtleDecrypt : Bytes → Bytes → Bytes → Option Bytes
  sha256 : Bytes → Bytes
  btoa : Bytes → String
  atob : String → Bytes
  textEncode : String → Bytes
  textDecode : Bytes → String
  stringifyPayload : Payload → String
  parsePayload : String → Option Payload

/-- Source b64encode: returns the empty string outside a browser, otherwise
btoa of the byte string (String.fromCharCode is the identity on byte lists in
this model). -/
def b64encode (env : CryptoEnv) (buf : Bytes) : String :=
  if env.windowAvailable then env.btoa buf else emptyString

/-- Source b64decode: returns an empty buffer outside a browser, otherwise
atob back to bytes. -/
def b64decode (env : CryptoEnv) (s : String) : Bytes :=
  if env.windowAvailable then env.atob s else []

/-- Lower-case hex digit, as produced by Number.toString(16). -/
def hexDigitChar (n : Nat) : Char :=
  if n < 10 then Char.ofNat (48 + n) else Char.ofNat (87 + n)

/-- Source toHex on a byte buffer: every byte becomes two hex digits
(toString(16) padded to width 2; faithful for values below 256). -/
def toHexChars (bs : Bytes) : List Char :=
  bs.flatMap (fun b => [hexDigitChar (b / 16), hexDigitChar (b % 16)])

/-- Source toHex returning the hex string. -/
def toHex (bs : Bytes) : String :=
  String.mk (toHexChars bs)

/-- Numeric value of one hex digit, upper or lower case (parseInt base 16). -/
def hexVal (c : Char) : Nat :=
  if 97 ≤ c.toNat then c.toNat - 87
  else if 65 ≤ c.toNat then c.toNat - 55
  else c.toNat - 48

/-- Source fromHex: consume the hex string two digits at a time. -/
def fromHexBytes : List Char → Bytes
  | c1 :: c2 :: rest => (hexVal c1 * 16 + hexVal c2) :: fromHexBytes rest
  | _ => []

/-- Source fromHex on the string form. -/
def fromHex (s : String) : Bytes :=
  fromHexBytes s.toList

/-- Source randBytes: a zero-initialised buffer of length n, filled from
window.crypto.getRandomValues only when both window and window.crypto exist. -/
def randBytes (env : CryptoEnv) (n : Nat) : Bytes :=
  if env.windowAvailable && env.cryptoAvailable then env.getRandomValues n
  else List.replicate n 0

/-- Source pbkdf2: importKey then deriveBits with PBKDF2/SHA-256; the wrapper
passes password, salt, iteration count and byte length straight through. -/
def pbkdf2 (env : CryptoEnv) (password : String) (salt : Bytes)
    (iterations : Nat) (length : Nat) : Bytes :=
  env.deriveBits password salt iterations length

/-- Source getAesKeyFromPassword: PBKDF2 with 210000 iterations and 32 bytes
of output, imported as the raw AES-GCM key (importKey is the identity on raw
key material in this model). -/
def getAesKeyFromPassword (env : CryptoEnv) (password : String) (salt : Bytes) : Bytes :=
  pbkdf2 env password salt 210000 32

/-- Whitespace characters recognised by String.prototype.trim (ASCII part). -/
def isJsWhitespace (c : Char) : Bool :=
  c = ' ' || c = '\t' || c = '\n' || c = '\r'

/-- JavaScript trim: strip leading and trailing whitespace. -/
def jsTrim (s : String) : String :=
  String.mk (((s.toList.dropWhile isJsWhitespace).reverse.dropWhile isJsWhitespace).reverse)

/-- JavaScript toLowerCase, ASCII fragment. -/
def jsToLower (s : String) : String :=
  String.mk (s.toList.map Char.toLower)

/-- JavaScript toUpperCase, ASCII fragment. -/
def jsToUpper (s : String) : String :=
  String.mk (s.toList.map Char.toUpper)

/-- JavaScript a || b on strings: the empty string is falsy. -/
def jsOrStr (a b : String) : String :=
  if a = emptyString then b else a

/-- JavaScript a || b where a may be absent (undefined is falsy). -/
def jsOrOpt (a : Option String) (b : String) : String :=
  match a with
  | none => b
  | some s => jsOrStr s b

/-- Source hashAnswer: normalise (trim then lowercase), concatenate the UTF-8
bytes with the salt bytes, SHA-256 digest, base64 encode. -/
def hashAnswer (env : CryptoEnv) (answer : String) (saltBytes : Bytes) : String :=
  let norm := jsToLower (jsTrim answer)
  let concat := env.textEncode norm ++ saltBytes
  b64encode env (env.sha256 concat)

/-- Result of encryptJson: base64 IV and base64 ciphertext. -/
structure EncResult where
  iv : String
  ciphertext : String
deriving DecidableEq, Repr

/-- Source encryptJson: fresh 12-byte IV from randBytes, JSON-stringify the
payload to UTF-8 bytes, AES-GCM encrypt, base64 both outputs. -/
def encryptJson (env : CryptoEnv) (obj : Payload) (key : Bytes) : EncResult :=
  let iv := randBytes env 12
  let plaintext := env.textEncode (env.stringifyPayload obj)
  let cipher := env.subtleEncrypt key iv plaintext
  { iv := b64encode env iv, ciphertext := b64encode env cipher }

/-- Source decryptJson: base64-decode ciphertext and IV, AES-GCM decrypt
(none on tag failure), decode to text and JSON-parse (none on parse failure;
the source surfaces both as the surrounding catch). -/
def decryptJson (env : CryptoEnv) (ciphertextB64 ivB64 : String) (key : Bytes) :
    Option Payload :=
  let cipher := b64decode env ciphertextB64
  let iv := b64decode env ivB64
  (env.subtleDecrypt key iv cipher).bind fun plain =>
    env.parsePayload (env.textDecode plain)

/-- The external localStorage slot under key PF_E2EE_V1: either absent or a
(parsed) VaultState; an unparsable record behaves as absent, as in loadState. -/
abbrev Store := Option VaultState

/-- Source loadState: null outside a browser, else the stored record. -/
def loadState (env : CryptoEnv) (store : Store) : Option VaultState :=
  if env.windowAvailable then store else none

/-- Source saveState: silent no-op outside a browser, else full overwrite. -/
def saveState (env : CryptoEnv) (store : Store) (st : VaultState) : Store :=
  if env.windowAvailable then some st else store

/-- Source clearState: silent no-op outside a browser, else remove the record. -/
def clearState (env : CryptoEnv) (store : Store) : Store :=
  if env.windowAvailable then none else store

/-- The error taxonomy of the specification (discriminated failure kinds). -/
inductive VaultError where
  | validation (msg : String)
  | authentication (msg : String)
  | decryption (msg : String)
  | storage (msg : String)
deriving DecidableEq, Repr

/-- Source App.persist: load the stored record; when the record or the
in-memory AES key is missing, return at once — the source function returns
undefined on every path and constructs no error value, so the reported
component of the outcome is always none; otherwise re-encrypt the new payload
and overwrite only enc.ivB64 and enc.ciphertextB64 of the record. -/
def persist (env : CryptoEnv) (store : Store) (aesKey : Option Bytes)
    (newData : Payload) : Store × Option VaultError :=
  match loadState env store, aesKey with
  | some st, some key =>
      let enc := encryptJson env newData key
      let st2 := { st with enc := { st.enc with ivB64 := enc.iv, ciphertextB64 := enc.ciphertext } }
      (saveState env store st2, none)
  | _, _ => (store, none)

/-- Source onAddCategory transform on the in-memory payload: append the new
category; no history record is produced. -/
def onAddCategory (cat : Category) (prev : Payload) : Payload :=
  { prev with categories := prev.categories ++ [cat] }

/-- Source onAddEntry transform: append the entry and append an entry:add
history record (fresh id and timestamp are passed in: newId / toISOString are
external). -/
def onAddEntry (idNew ts : String) (entry : Entry) (prev : Payload) : Payload :=
  { prev with
    entries := prev.entries ++ [entry],
    history := prev.history ++
      [{ id := idNew, ts := ts, type := strEntryAdd, entry := some entry,
         category := none, removedEntriesCount := none }] }

/-- Source onDeleteCategory transform (the setData body): when the category
exists, remove it and its entries and append a category:delete record
carrying the removed-entries count; otherwise leave the payload unchanged. -/
def onDeleteCategory (idNew ts : String) (catId : String) (prev : Payload) : Payload :=
  match prev.categories.find? (fun c => c.id == catId) with
  | none => prev
  | some cat =>
      let entriesLeft := prev.entries.filter (fun e => e.categoryId != catId)
      { prev with
        categories := prev.categories.filter (fun c => c.id != catId),
        entries := entriesLeft,
        history := prev.history ++
          [{ id := idNew, ts := ts, type := strCategoryDelete, entry := none,
             category := some cat,
             removedEntriesCount := some (prev.entries.length - entriesLeft.length) }] }

/-- Source onDeleteEntry transform: drop the entry and append an entry:delete
record carrying the entry looked up (possibly absent). -/
def onDeleteEntry (idNew ts : String) (entryId : String) (prev : Payload) : Payload :=
  let target := prev.entries.find? (fun e => e.id == entryId)
  { prev with
    entries := prev.entries.filter (fun e => e.id != entryId),
    history := prev.history ++
      [{ id := idNew, ts := ts, type := strEntryDelete, entry := target,
         category := none, removedEntriesCount := none }] }

/-- Source onAddCurrency transform: replace any currency with the same
upper-cased code and append the new one; no history record. -/
def onAddCurrency (code : String) (rate : Int) (prev : Payload) : Payload :=
  let next := (prev.currencies.filter
      (fun c => jsToUpper (jsOrStr c.code emptyString) != jsToUpper code)) ++
    [{ code := jsToUpper code, rate := rate }]
  { prev with currencies := next }

/-- Source onSetBaseCurrency transform: set the upper-cased base code; no
history record. -/
def onSetBaseCurrency (code : String) (prev : Payload) : Payload :=
  { prev with baseCurrency := jsToUpper code }

/-- Source onRemoveCurrency transform: refuse to remove the base currency or
a currency used by a category; otherwise drop it, refilling with the base at
rate 1 when the table would become empty; no history record. -/
def onRemoveCurrency (code : String) (prev : Payload) : Payload :=
  let up := jsToUpper code
  let base := jsToUpper (jsOrStr prev.baseCurrency strBDT)
  if up = base then prev
  else if prev.categories.any (fun cat => jsToUpper (jsOrOpt cat.currency base) == up) then prev
  else
    let next := prev.currencies.filter (fun c => jsToUpper (jsOrStr c.code emptyString) != up)
    { prev with currencies := if next.length ≠ 0 then next else [{ code := base, rate := 1 }] }

/-- Source onDeleteHistoryItem transform: drop the history record; nothing is
appended. -/
def onDeleteHistoryItem (historyId : String) (prev : Payload) : Payload :=
  { prev with history := prev.history.filter (fun h => h.id != historyId) }

/-- Outcome of the step-1 login attempt: the step the screen is left at and
the error text shown (empty when none). -/
structure LoginStep1Result where
  step : Nat
  err : String
deriving DecidableEq, Repr

/-- Source verifyPassword (LoginScreen step 1): recompute the PBKDF2 verifier
from the typed password and the stored salt, hex encode, and compare to the
stored hex verifier with the string inequality of the source; on mismatch
stay at step 1 with the fixed message, on match advance to step 2. -/
def verifyPassword (env : CryptoEnv) (auth : AuthBlock) (password : String) :
    LoginStep1Result :=
  let saltPwd := fromHex auth.saltPwdHex
  let verifierHex := toHex (pbkdf2 env password saltPwd 210000 32)
  if verifierHex ≠ auth.verifierHex then { step := 1, err := errInvalidPassword }
  else { step := 2, err := emptyString }

/-- Provided answers of step 2, keyed by question text (the answers object of
the source, one binding per key). -/
abbrev Answers := List (String × String)

/-- Source answers[qa.q] || '': the provided answer for a question text, the
empty string when absent. -/
def lookupAnswer (answers : Answers) (q : String) : String :=
  jsOrStr (((answers.find? (fun p => p.1 == q)).map (fun p => p.2)).getD emptyString)
    emptyString

/-- One iteration of the verifyQuestions loop: hash the provided answer with
the stored salt and compare to the stored hash. -/
def perQuestionCheck (env : CryptoEnv) (answers : Answers) (qa : QA) : Bool :=
  hashAnswer env (lookupAnswer answers qa.q) (b64decode env qa.saltB64) == qa.hashB64

/-- The verifyQuestions loop as a whole: every stored question must pass. -/
def verifyQuestionsCheck (env : CryptoEnv) (qas : List QA) (answers : Answers) : Bool :=
  qas.all (perQuestionCheck env answers)

/-- Outcome of the step-2 login attempt: the error text shown and, on
success, the in-memory key and decrypted payload handed to onUnlock. -/
structure LoginStep2Result where
  err : String
  unlocked : Option (Bytes × Payload)
deriving DecidableEq, Repr

/-- Source verifyQuestions (LoginScreen step 2): check all stored questions
against the provided answers — the first mismatch aborts with the one fixed
message; then derive the AES key from the password and stored saltEnc and
decrypt the stored payload, failing with the decrypt message when AES-GCM or
JSON parsing rejects. -/
def verifyQuestions (env : CryptoEnv) (state : VaultState) (password : String)
    (answers : Answers) : LoginStep2Result :=
  if verifyQuestionsCheck env state.auth.qas answers then
    let key := getAesKeyFromPassword env password (fromHex state.enc.saltEncHex)
    match decryptJson env state.enc.ciphertextB64 state.enc.ivB64 key with
    | some data => { err := emptyString, unlocked := some (key, data) }
    | none => { err := errDecryptFailed, unlocked := none }
  else { err := errAnswersIncorrect, unlocked := none }

/-- One question/answer pair typed into the setup form. -/
structure QAInput where
  q : String
  a : String
deriving DecidableEq, Repr

/-- Outcome of handleSetup: a validation failure message (setErr, nothing
persisted) or success (saveState ran and onComplete fired). -/
inductive SetupOutcome where
  | failure (msg : String)
  | success
deriving DecidableEq, Repr

/-- The boot state after a setup attempt: onComplete sets boot to login on
success; on failure the screen stays on setup. -/
def setupBoot : SetupOutcome → String
  | SetupOutcome.success => strLogin
  | SetupOutcome.failure _ => strSetup

/-- The empty initial payload encrypted by handleSetup. -/
def initialData : Payload :=
  { categories := [], entries := [], currencies := [{ code := strBDT, rate := 1 }],
    baseCurrency := strBDT, history := [] }

/-- Source handleSetup (SetupScreen): validate that firstName, password and
confirm are non-empty, that password equals confirm, and that every
question/answer pair is non-empty — each failure sets the matching message
and returns without persisting; on success generate saltPwd and the hex
verifier, generate saltEnc and derive the AES key, hash the five answers with
fresh salts, encrypt the empty initial payload, save the assembled version-1
record and complete.  The record assembled by the success path is named
separately as setupState: saltPwd and the hex verifier, saltEnc and the
derived AES key, the answers hashed with fresh salts, and the encrypted
empty initial payload. -/
def setupState (env : CryptoEnv) (firstName password : String) (qas : List QAInput) : VaultState :=
  let saltPwd := randBytes env 16
  let verifierHex := toHex (pbkdf2 env password saltPwd 210000 32)
  let saltEnc := randBytes env 16
  let aesKey := getAesKeyFromPassword env password saltEnc
  let qasHashed := qas.map fun qa =>
    let salt := randBytes env 16
    { q := qa.q, saltB64 := b64encode env salt, hashB64 := hashAnswer env qa.a salt : QA }
  let enc := encryptJson env initialData aesKey
  { version := 1, user := { firstName := firstName },
    auth := { saltPwdHex := toHex saltPwd, verifierHex := verifierHex, qas := qasHashed },
    enc := { saltEncHex := toHex saltEnc, ivB64 := enc.iv, ciphertextB64 := enc.ciphertext } }

def handleSetup (env : CryptoEnv) (store : Store) (firstName password confirm : String)
    (qas : List QAInput) : SetupOutcome × Store :=
  if firstName = emptyString ∨ password = emptyString ∨ confirm = emptyString then
    (SetupOutcome.failure errFillAll, store)
  else if password ≠ confirm then (SetupOutcome.failure errPwMismatch, store)
  else if ∃ qa ∈ qas, qa.q = emptyString ∨ qa.a = emptyString then
    (SetupOutcome.failure errQasRequired, store)
  else
    (SetupOutcome.success, saveState env store (setupState env firstName password qas))

/-- The storage-writing operations reachable after setup completes: every
mutation funnels through persist with the held key and the transformed
payload (onUnlock also persists), logout only discards in-memory state, and
reset clears the record. -/
inductive StoreOp where
  | mutate (aesKey : Option Bytes) (newData : Payload)
  | logout
  | reset

/-- Effect of one post-setup operation on the stored record. -/
def applyStoreOp (env : CryptoEnv) (op : StoreOp) (store : Store) : Store :=
  match op with
  | StoreOp.mutate key nd => (persist env store key nd).1
  | StoreOp.logout => store
  | StoreOp.reset => clearState env store

/-- The collaborator laws every real browser environment satisfies: the code
runs in a window, atob inverts btoa, AES-GCM decryption inverts encryption
under the same key and IV, and the random source produces bytes. -/
structure EnvSound (env : CryptoEnv) : Prop where
  window : env.windowAvailable = true
  b64_rt : ∀ bs : Bytes, env.atob (env.btoa bs) = bs
  aead_rt : ∀ key iv pt : Bytes, env.subtleDecrypt key iv (env.subtleEncrypt key iv pt) = some pt
  rand_bytes : ∀ n : Nat, ∀ b ∈ env.getRandomValues n, b < 256

/-- A payload survives JSON serialization in the given environment:
stringify, UTF-8 encode, decode and parse returns it unchanged. -/
def SurvivesJson (env : CryptoEnv) (p : Payload) : Prop :=
  env.parsePayload (env.textDecode (env.textEncode (env.stringifyPayload p))) = some p

theorem hexVal_hexDigitChar {n : Nat} (h : n < 16) : hexVal (hexDigitChar n) = n := by
  interval_cases n <;> decide

theorem fromHexBytes_toHexChars (bs : Bytes) (h : ∀ b ∈ bs, b < 256) :
    fromHexBytes (toHexChars bs) = bs := by
  induction bs with
  | nil => rfl
  | cons b rest ih =>
      have hb : b < 256 := h b (List.mem_cons_self b rest)
      have h1 : b / 16 < 16 := by omega
      have h2 : b % 16 < 16 := Nat.mod_lt _ (by omega)
      have hrest := ih (fun x hx => h x (List.mem_cons_of_mem b hx))
      have hv : hexVal (hexDigitChar (b / 16)) * 16 + hexVal (hexDigitChar (b % 16)) = b := by
        rw [hexVal_hexDigitChar h1, hexVal_hexDigitChar h2]
        omega
      simp only [toHexChars, List.flatMap_cons, List.cons_append, List.nil_append, fromHexBytes]
      rw [hv]
      exact congrArg (List.cons b) hrest

theorem fromHex_toHex (bs : Bytes) (h : ∀ b ∈ bs, b < 256) : fromHex (toHex bs) = bs := by
  have hl : (String.mk (toHexChars bs)).toList = toHexChars bs := rfl
  simp only [fromHex, toHex, hl]
  exact fromHexBytes_toHexChars bs h

theorem randBytes_lt (env : CryptoEnv) (hs : EnvSound env) (n : Nat) :
    ∀ b ∈ randBytes env n, b < 256 := by
  intro b hb
  unfold randBytes at hb
  by_cases hc : (env.windowAvailable && env.cryptoAvailable) = true
  · rw [if_pos hc] at hb
    exact hs.rand_bytes n b hb
  · rw [if_neg hc] at hb
    have := List.eq_of_mem_replicate hb
    omega

theorem b64_roundtrip (env : CryptoEnv) (hs : EnvSound env) (bs : Bytes) :
    b64decode env (b64encode env bs) = bs := by
  simp [b64encode, b64decode, hs.window, hs.b64_rt]

/-- A globally invertible concrete stand-in for btoa, used only to build the
concrete environment of the evaluation theorems: each byte value is written
in unary followed by a stop character. -/
def unaryChars (n : Nat) : List Char :=
  List.replicate n 'a' ++ ['b']

/-- Concrete btoa stand-in. -/
def btoaW (bs : Bytes) : String :=
  String.mk (bs.flatMap unaryChars)

/-- Concrete atob stand-in: count the unary runs back into byte values. -/
def atobWAux : List Char → Nat → Bytes
  | [], _ => []
  | c :: rest, acc => if c = 'b' then acc :: atobWAux rest 0 else atobWAux rest (acc + 1)

/-- Concrete atob stand-in on strings. -/
def atobW (s : String) : Bytes :=
  atobWAux s.toList 0

theorem atobWAux_unary (n : Nat) (l : List Char) (acc : Nat) :
    atobWAux (unaryChars n ++ l) acc = (acc + n) :: atobWAux l 0 := by
  induction n generalizing acc with
  | zero => simp [unaryChars, atobWAux]
  | succ m ih =>
      have hrep : unaryChars (m + 1) = 'a' :: unaryChars m := by
        simp [unaryChars, List.replicate_succ]
      rw [hrep, List.cons_append]
      show atobWAux ('a' :: (unaryChars m ++ l)) acc = (acc + (m + 1)) :: atobWAux l 0
      simp only [atobWAux, if_neg (by decide : ¬ ('a' = 'b'))]
      rw [ih (acc + 1)]
      ring_nf

theorem atobW_btoaW (bs : Bytes) : atobW (btoaW bs) = bs := by
  induction bs with
  | nil => rfl
  | cons b rest ih =>
      have hl : (String.mk ((b :: rest).flatMap unaryChars)).toList
          = unaryChars b ++ rest.flatMap unaryChars := by
        simp [List.flatMap_cons]
      simp only [atobW, btoaW, hl, atobWAux_unary]
      simpa [atobW, btoaW] using ih

/-- Concrete environment for the evaluation theorems: a window with a random
source, the unary base64 stand-in, transparent AEAD and digest stand-ins, and
a serializer under which the initial payload survives. -/
def envW : CryptoEnv :=
  { windowAvailable := true
    cryptoAvailable := true
    getRandomValues := fun n => List.replicate n 7
    deriveBits := fun _ salt _ len => salt ++ [len]
    subtleEncrypt := fun _ _ pt => pt
    subtleDecrypt := fun _ _ ct => some ct
    sha256 := fun bs => bs
    btoa := btoaW
    atob := atobW
    textEncode := fun s => s.toList.map Char.toNat
    textDecode := fun bs => String.mk (bs.map Char.ofNat)
    stringifyPayload := fun _ => emptyString
    parsePayload := fun _ => some initialData }

theorem envW_sound : EnvSound envW := by
  refine ⟨rfl, atobW_btoaW, fun _ _ _ => rfl, ?_⟩
  intro n b hb
  have := List.eq_of_mem_replicate hb
  omega

theorem envW_survives : SurvivesJson envW initialData := rfl

theorem decrypt_of_encrypt_parts (env : CryptoEnv) (hs : EnvSound env)
    (key iv plain : Bytes) (p : Payload)
    (hparse : env.parsePayload (env.textDecode plain) = some p) :
    decryptJson env (b64encode env (env.subtleEncrypt key iv plain))
      (b64encode env iv) key = some p := by
  simp only [decryptJson, b64_roundtrip env hs, hs.aead_rt]
  simpa using hparse

/-- Claim C1: for every payload that survives JSON serialization and every
AES key, decrypting the ciphertext produced by encryptJson with the IV it
returned and the same key recovers the payload, given the collaborator laws
(base64 and AES-GCM round-trips) of a sound environment. -/
theorem encryptJson_decryptJson_roundtrip (env : CryptoEnv) (key : Bytes) (p : Payload)
    (hs : EnvSound env) (hp : SurvivesJson env p) :
    decryptJson env (encryptJson env p key).ciphertext (encryptJson env p key).iv key
      = some p := by
  have h := decrypt_of_encrypt_parts env hs key (randBytes env 12)
    (env.textEncode (env.stringifyPayload p)) p hp
  simpa [encryptJson] using h

/-- Claim C1 witness: the round-trip evaluated in the concrete environment on
the initial payload and the empty key. -/
theorem encryptJson_decryptJson_roundtrip_witness :
    EnvSound envW ∧ SurvivesJson envW initialData ∧
    decryptJson envW (encryptJson envW initialData []).ciphertext
      (encryptJson envW initialData []).iv [] = some initialData :=
  ⟨envW_sound, envW_survives,
    encryptJson_decryptJson_roundtrip envW [] initialData envW_sound envW_survives⟩

/-- Claim C9: when window.crypto is unavailable the source randBytes returns
the zero-initialised buffer of the requested length unchanged, so every salt
and IV generated in that environment — in particular the IV taken by
encryptJson — is the all-zero byte string. -/
theorem randBytes_zero_without_crypto (env : CryptoEnv) (n : Nat) (p : Payload) (k : Bytes)
    (h : env.cryptoAvailable = false) :
    randBytes env n = List.replicate n 0 ∧
    (encryptJson env p k).iv = b64encode env (List.replicate 12 0) := by
  have hr : ∀ m, randBytes env m = List.replicate m 0 := by
    intro m
    simp [randBytes, h]
  exact ⟨hr n, by simp [encryptJson, hr 12]⟩

/-- The concrete environment with the secure random source removed. -/
def envW9 : CryptoEnv :=
  { envW with cryptoAvailable := false }

/-- Claim C9 witness: evaluated at the crypto-less environment for a
16-byte request. -/
theorem randBytes_zero_without_crypto_witness :
    envW9.cryptoAvailable = false ∧
    (randBytes envW9 16 = List.replicate 16 0 ∧
      (encryptJson envW9 initialData []).iv = b64encode envW9 (List.replicate 12 0)) :=
  ⟨rfl, randBytes_zero_without_crypto envW9 16 initialData [] rfl⟩

/-- A non-empty marker string for concrete inputs. -/
def strX : String := "x"

/-- Concrete auth block whose stored verifier can never match. -/
def authC3 : AuthBlock :=
  { saltPwdHex := emptyString, verifierHex := emptyString, qas := [] }

/-- Concrete stored question whose hash matches no answer in the concrete
environment. -/
def qaBadC3 : QA :=
  { q := strBDT, saltB64 := emptyString, hashB64 := strX }

/-- Concrete vault record with a single unanswerable question. -/
def stC3 : VaultState :=
  { version := 1, user := { firstName := emptyString },
    auth := { saltPwdHex := emptyString, verifierHex := emptyString, qas := [qaBadC3] },
    enc := { saltEncHex := emptyString, ivB64 := emptyString, ciphertextB64 := emptyString } }

/-- Claim C3 counterexample: formalising a generic message as one that does
not distinguish the failing factor, the two factors must produce the same
failure text; at this concrete input the failed password step stays at step 1
but reports the fixed string Invalid password., which differs from the failed
answer step's message — the message does reveal which factor failed. -/
theorem verifyPassword_message_identifies_factor :
    (verifyPassword envW stC3.auth strBDT).step = 1 ∧
    (verifyPassword envW stC3.auth strBDT).err = errInvalidPassword ∧
    (verifyQuestions envW stC3 strBDT []).err = errAnswersIncorrect ∧
    (verifyPassword envW stC3.auth strBDT).err ≠ (verifyQuestions envW stC3 strBDT []).err := by
  refine ⟨?_, ?_, ?_, ?_⟩ <;> decide

/-- Claim C3 (amended): for every password whose derived verifier differs
from the stored verifier, the session remains at step 1 and the reported
message is the fixed string Invalid password. — which names the password
factor rather than being factor-neutral. -/
theorem verifyPassword_mismatch_stays_step1 (env : CryptoEnv) (auth : AuthBlock)
    (password : String)
    (h : toHex (pbkdf2 env password (fromHex auth.saltPwdHex) 210000 32) ≠ auth.verifierHex) :
    verifyPassword env auth password = { step := 1, err := errInvalidPassword } := by
  simp only [verifyPassword]
  rw [if_pos h]

/-- Claim C3 witness: the amended statement evaluated at a concrete mismatch. -/
theorem verifyPassword_mismatch_stays_step1_witness :
    toHex (pbkdf2 envW strBDT (fromHex authC3.saltPwdHex) 210000 32) ≠ authC3.verifierHex ∧
    verifyPassword envW authC3 strBDT = { step := 1, err := errInvalidPassword } :=
  ⟨by decide, verifyPassword_mismatch_stays_step1 envW authC3 strBDT (by decide)⟩

theorem verifyQuestionsCheck_iff (env : CryptoEnv) (qas : List QA) (answers : Answers) :
    verifyQuestionsCheck env qas answers = true ↔
      ∀ qa ∈ qas, hashAnswer env (lookupAnswer answers qa.q) (b64decode env qa.saltB64)
        = qa.hashB64 := by
  simp [verifyQuestionsCheck, perQuestionCheck, List.all_eq_true]

/-- Claim C4: step 2 succeeds only when every stored question's hash matches
the hash of its provided answer; any single mismatch among the five makes the
whole check fail, and the failing result is the one fixed message/locked
outcome, independent of which question failed. -/
theorem verifyQuestions_all_five (env : CryptoEnv) (st : VaultState) (password : String)
    (answers : Answers) (_h5 : st.auth.qas.length = 5) :
    ((verifyQuestions env st password answers).unlocked.isSome = true →
      ∀ qa ∈ st.auth.qas,
        hashAnswer env (lookupAnswer answers qa.q) (b64decode env qa.saltB64) = qa.hashB64) ∧
    ((∃ qa ∈ st.auth.qas,
        hashAnswer env (lookupAnswer answers qa.q) (b64decode env qa.saltB64) ≠ qa.hashB64) →
      verifyQuestions env st password answers
        = { err := errAnswersIncorrect, unlocked := none }) := by
  constructor
  · intro hu
    rw [← verifyQuestionsCheck_iff]
    by_contra hch
    unfold verifyQuestions at hu
    rw [if_neg hch] at hu
    simp at hu
  · rintro ⟨qa, hqa, hne⟩
    have hch : ¬ (verifyQuestionsCheck env st.auth.qas answers = true) := by
      rw [verifyQuestionsCheck_iff]
      intro hall
      exact hne (hall qa hqa)
    unfold verifyQuestions
    rw [if_neg hch]

/-- Concrete stored question that the empty answer set satisfies in the
concrete environment. -/
def qaOkC4 : QA :=
  { q := strBDT, saltB64 := emptyString, hashB64 := emptyString }

/-- Concrete vault record with five stored questions of which exactly one
cannot match. -/
def stC4 : VaultState :=
  { version := 1, user := { firstName := emptyString },
    auth := { saltPwdHex := emptyString, verifierHex := emptyString,
              qas := [qaOkC4, qaOkC4, qaOkC4, qaOkC4, qaBadC3] },
    enc := { saltEncHex := emptyString, ivB64 := emptyString, ciphertextB64 := emptyString } }

/-- Claim C4 witness: five stored questions, four matching and one wrong,
evaluated to the fixed failure outcome. -/
theorem verifyQuestions_all_five_witness :
    stC4.auth.qas.length = 5 ∧
    verifyQuestions envW stC4 strBDT []
      = { err := errAnswersIncorrect, unlocked := none } :=
  ⟨by decide,
    (verifyQuestions_all_five envW stC4 strBDT [] (by decide)).2
      ⟨qaBadC3, by decide, by decide⟩⟩

/-- Claim C10: a stored question with no provided answer is checked against
the hash of the normalised empty string (the check literally digests the
encoded normalised empty answer concatenated with the stored salt), and two
stored questions with the same text are both checked against the one provided
answer looked up under that shared text. -/
theorem verifyQuestions_missing_and_duplicate (env : CryptoEnv) (answers : Answers)
    (qa1 qa2 : QA)
    (hmiss : answers.find? (fun p => p.1 == qa1.q) = none)
    (hdup : qa2.q = qa1.q) :
    perQuestionCheck env answers qa1 =
      (b64encode env (env.sha256
        (env.textEncode (jsToLower (jsTrim emptyString)) ++ b64decode env qa1.saltB64))
        == qa1.hashB64) ∧
    verifyQuestionsCheck env [qa1, qa2] answers =
      (hashAnswer env (lookupAnswer answers qa1.q) (b64decode env qa1.saltB64) == qa1.hashB64 &&
       hashAnswer env (lookupAnswer answers qa1.q) (b64decode env qa2.saltB64) == qa2.hashB64) := by
  have hl : lookupAnswer answers qa1.q = emptyString := by
    simp [lookupAnswer, hmiss, jsOrStr]
  constructor
  · simp [perQuestionCheck, hashAnswer, hl]
  · simp [verifyQuestionsCheck, perQuestionCheck, hdup]

/-- Claim C10 witness: evaluated on two stored questions sharing one text and
an empty answer set. -/
theorem verifyQuestions_missing_and_duplicate_witness :
    ([] : Answers).find? (fun p => p.1 == qaOkC4.q) = none ∧
    qaBadC3.q = qaOkC4.q ∧
    (perQuestionCheck envW [] qaOkC4 =
      (b64encode envW (envW.sha256
        (envW.textEncode (jsToLower (jsTrim emptyString)) ++ b64decode envW qaOkC4.saltB64))
        == qaOkC4.hashB64) ∧
     verifyQuestionsCheck envW [qaOkC4, qaBadC3] [] =
      (hashAnswer envW (lookupAnswer [] qaOkC4.q) (b64decode envW qaOkC4.saltB64) == qaOkC4.hashB64 &&
       hashAnswer envW (lookupAnswer [] qaOkC4.q) (b64decode envW qaBadC3.saltB64) == qaBadC3.hashB64)) :=
  ⟨rfl, rfl, verifyQuestions_missing_and_duplicate envW [] qaOkC4 qaBadC3 rfl rfl⟩

/-- Concrete category used as a mutation input. -/
def catC5 : Category :=
  { id := strX, name := strBDT, amount := 1, currency := none, remarks := none }

/-- Claim C5 counterexample: adding a category is a structural change to the
payload, yet the payload produced by onAddCategory carries no new history
record — its history is the unchanged empty list. -/
theorem onAddCategory_appends_no_history :
    (onAddCategory catC5 initialData).categories ≠ initialData.categories ∧
    (onAddCategory catC5 initialData).history = initialData.history ∧
    initialData.history = [] := by
  refine ⟨?_, ?_, ?_⟩ <;> decide

/-- Claim C5 (amended): adding an entry, deleting an entry and deleting an
existing category each append exactly one history record describing the
change, but adding a category, adding or updating a currency, and changing
the base currency leave the history untouched. -/
theorem history_appended_only_for_entry_ops (idNew ts eid catId code : String)
    (e : Entry) (cat : Category) (r : Int) (p : Payload) (cat0 : Category)
    (hfind : p.categories.find? (fun x => x.id == catId) = some cat0) :
    (onAddEntry idNew ts e p).history = p.history ++
      [{ id := idNew, ts := ts, type := strEntryAdd, entry := some e,
         category := none, removedEntriesCount := none }] ∧
    (onDeleteEntry idNew ts eid p).history = p.history ++
      [{ id := idNew, ts := ts, type := strEntryDelete,
         entry := p.entries.find? (fun x => x.id == eid),
         category := none, removedEntriesCount := none }] ∧
    (onDeleteCategory idNew ts catId p).history = p.history ++
      [{ id := idNew, ts := ts, type := strCategoryDelete, entry := none,
         category := some cat0,
         removedEntriesCount := some (p.entries.length -
           (p.entries.filter (fun x => x.categoryId != catId)).length) }] ∧
    (onAddCategory cat p).history = p.history ∧
    (onAddCurrency code r p).history = p.history ∧
    (onSetBaseCurrency code p).history = p.history ∧
    (onRemoveCurrency code p).history = p.history := by
  refine ⟨rfl, rfl, ?_, rfl, rfl, rfl, ?_⟩
  · simp [onDeleteCategory, hfind]
  · simp only [onRemoveCurrency]
    split
    · rfl
    · split
      · rfl
      · rfl

/-- Concrete payload containing the concrete category. -/
def pC5 : Payload :=
  { categories := [catC5], entries := [], currencies := [{ code := strBDT, rate := 1 }],
    baseCurrency := strBDT, history := [] }

/-- Claim C5 witness: the amended statement evaluated on a payload holding
the concrete category, deleting that category. -/
theorem history_appended_only_for_entry_ops_witness :
    pC5.categories.find? (fun x => x.id == strX) = some catC5 ∧
    (onDeleteCategory strX strX strX pC5).history = pC5.history ++
      [{ id := strX, ts := strX, type := strCategoryDelete, entry := none,
         category := some catC5,
         removedEntriesCount := some (pC5.entries.length -
           (pC5.entries.filter (fun x => x.categoryId != strX)).length) }] :=
  ⟨by decide,
    (history_appended_only_for_entry_ops strX strX strX strX strBDT
      { id := strX, categoryId := strX, amount := 1, dateISO := strX }
      catC5 1 pC5 catC5 (by decide)).2.2.1⟩

/-- Claim C6: every validation failure of handleSetup (a missing field, a
password/confirm mismatch, an empty question or answer) reports a failure
message and leaves the stored record untouched; with valid input and a sound
environment the persisted record's encrypted payload decrypts — under the
key re-derived from the password and the stored saltEnc — to exactly the
empty initial payload, and the screen transitions to login. -/
theorem handleSetup_validation_and_success (env : CryptoEnv) (store : Store)
    (firstName password confirm : String) (qas : List QAInput)
    (hs : EnvSound env) (hp : SurvivesJson env initialData) :
    ((firstName = emptyString ∨ password = emptyString ∨ confirm = emptyString ∨
        password ≠ confirm ∨ (∃ qa ∈ qas, qa.q = emptyString ∨ qa.a = emptyString)) →
      ∃ m, handleSetup env store firstName password confirm qas
        = (SetupOutcome.failure m, store)) ∧
    ((firstName ≠ emptyString ∧ password ≠ emptyString ∧ confirm ≠ emptyString ∧
        password = confirm ∧ ∀ qa ∈ qas, qa.q ≠ emptyString ∧ qa.a ≠ emptyString) →
      handleSetup env store firstName password confirm qas
        = (SetupOutcome.success, some (setupState env firstName password qas)) ∧
      decryptJson env (setupState env firstName password qas).enc.ciphertextB64
        (setupState env firstName password qas).enc.ivB64
        (getAesKeyFromPassword env password
          (fromHex (setupState env firstName password qas).enc.saltEncHex))
        = some initialData ∧
      setupBoot SetupOutcome.success = strLogin) := by
  constructor
  · intro hbad
    unfold handleSetup
    by_cases h1 : firstName = emptyString ∨ password = emptyString ∨ confirm = emptyString
    · rw [if_pos h1]
      exact ⟨errFillAll, rfl⟩
    · rw [if_neg h1]
      by_cases h2 : password ≠ confirm
      · rw [if_pos h2]
        exact ⟨errPwMismatch, rfl⟩
      · rw [if_neg h2]
        by_cases h3 : ∃ qa ∈ qas, qa.q = emptyString ∨ qa.a = emptyString
        · rw [if_pos h3]
          exact ⟨errQasRequired, rfl⟩
        · rcases hbad with h | h | h | h | h
          · exact absurd (Or.inl h) h1
          · exact absurd (Or.inr (Or.inl h)) h1
          · exact absurd (Or.inr (Or.inr h)) h1
          · exact absurd h h2
          · exact absurd h h3
  · rintro ⟨hf, hpw, hc, heq, hqa⟩
    have h1 : ¬ (firstName = emptyString ∨ password = emptyString ∨ confirm = emptyString) := by
      tauto
    have h2 : ¬ (password ≠ confirm) := by tauto
    have h3 : ¬ (∃ qa ∈ qas, qa.q = emptyString ∨ qa.a = emptyString) := by
      rintro ⟨qa, hmem, hor⟩
      rcases hqa qa hmem with ⟨hq, ha⟩
      tauto
    refine ⟨?_, ?_, rfl⟩
    · unfold handleSetup
      rw [if_neg h1, if_neg h2, if_neg h3, saveState, if_pos hs.window]
    · have hse : (setupState env firstName password qas).enc.saltEncHex
          = toHex (randBytes env 16) := rfl
      have hiv : (setupState env firstName password qas).enc.ivB64
          = b64encode env (randBytes env 12) := rfl
      have hct : (setupState env firstName password qas).enc.ciphertextB64
          = b64encode env (env.subtleEncrypt
              (getAesKeyFromPassword env password (randBytes env 16)) (randBytes env 12)
              (env.textEncode (env.stringifyPayload initialData))) := rfl
      rw [hse, hiv, hct, fromHex_toHex _ (randBytes_lt env hs 16)]
      exact decrypt_of_encrypt_parts env hs _ _ _ initialData hp

/-- Concrete valid setup inputs: five non-empty question/answer pairs. -/
def qasW6 : List QAInput :=
  [{ q := strBDT, a := strX }, { q := strBDT, a := strX }, { q := strBDT, a := strX },
   { q := strBDT, a := strX }, { q := strBDT, a := strX }]

/-- Claim C6 witness: the theorem applied in the concrete environment, with
the success branch discharged on concrete valid inputs. -/
theorem handleSetup_validation_and_success_witness :
    EnvSound envW ∧ SurvivesJson envW initialData ∧
    (handleSetup envW none strBDT strX strX qasW6
        = (SetupOutcome.success, some (setupState envW strBDT strX qasW6)) ∧
      decryptJson envW (setupState envW strBDT strX qasW6).enc.ciphertextB64
        (setupState envW strBDT strX qasW6).enc.ivB64
        (getAesKeyFromPassword envW strX
          (fromHex (setupState envW strBDT strX qasW6).enc.saltEncHex))
        = some initialData ∧
      setupBoot SetupOutcome.success = strLogin) :=
  ⟨envW_sound, envW_survives,
    (handleSetup_validation_and_success envW none strBDT strX strX qasW6
      envW_sound envW_survives).2 (by decide)⟩

/-- Claim C7: no post-setup operation other than a full reset changes the
version, the user block (firstName) or any field of the auth block (saltPwd,
verifier, the five QA salts and hashes), nor the stored encryption salt; and
whenever a mutation's persist rewrites the record at all, enc.iv and
enc.ciphertext are overwritten together, both taken from the one encryptJson
call on the new payload. -/
theorem auth_block_frame (env : CryptoEnv) (op : StoreOp) (st st' : VaultState)
    (hop : op ≠ StoreOp.reset)
    (happ : applyStoreOp env op (some st) = some st') :
    (st'.version = st.version ∧ st'.user = st.user ∧ st'.auth = st.auth ∧
      st'.enc.saltEncHex = st.enc.saltEncHex) ∧
    (st' = st ∨ ∃ key nd, op = StoreOp.mutate (some key) nd ∧
      st'.enc.ivB64 = (encryptJson env nd key).iv ∧
      st'.enc.ciphertextB64 = (encryptJson env nd key).ciphertext) := by
  cases op with
  | reset => exact absurd rfl hop
  | logout =>
      have h : st = st' := by simpa [applyStoreOp] using happ
      subst h
      exact ⟨⟨rfl, rfl, rfl, rfl⟩, Or.inl rfl⟩
  | mutate key nd =>
      cases key with
      | none =>
          have h : st = st' := by simpa [applyStoreOp, persist, loadState] using happ
          subst h
          exact ⟨⟨rfl, rfl, rfl, rfl⟩, Or.inl rfl⟩
      | some k =>
          by_cases hw : env.windowAvailable = true
          · have h : st' = { st with enc := { st.enc with
                ivB64 := (encryptJson env nd k).iv,
                ciphertextB64 := (encryptJson env nd k).ciphertext } } := by
              have := happ
              simp [applyStoreOp, persist, loadState, saveState, hw] at this
              exact this.symm
            subst h
            exact ⟨⟨rfl, rfl, rfl, rfl⟩, Or.inr ⟨k, nd, rfl, rfl, rfl⟩⟩
          · have hwf : env.windowAvailable = false := by
              cases hb : env.windowAvailable
              · rfl
              · exact absurd hb hw
            have h : st = st' := by
              simpa [applyStoreOp, persist, loadState, hwf] using happ
            subst h
            exact ⟨⟨rfl, rfl, rfl, rfl⟩, Or.inl rfl⟩

/-- Concrete pre-mutation vault record. -/
def stW7 : VaultState :=
  { version := 1, user := { firstName := strBDT },
    auth := { saltPwdHex := emptyString, verifierHex := strX, qas := [qaOkC4] },
    enc := { saltEncHex := emptyString, ivB64 := strX, ciphertextB64 := strX } }

/-- The record after persisting a mutation of the concrete vault. -/
def stW7' : VaultState :=
  { stW7 with enc := { stW7.enc with
      ivB64 := (encryptJson envW initialData []).iv,
      ciphertextB64 := (encryptJson envW initialData []).ciphertext } }

/-- Claim C7 witness: the frame property evaluated on a concrete persisted
mutation. -/
theorem auth_block_frame_witness :
    StoreOp.mutate (some ([] : Bytes)) initialData ≠ StoreOp.reset ∧
    applyStoreOp envW (StoreOp.mutate (some []) initialData) (some stW7) = some stW7' ∧
    ((stW7'.version = stW7.version ∧ stW7'.user = stW7.user ∧ stW7'.auth = stW7.auth ∧
        stW7'.enc.saltEncHex = stW7.enc.saltEncHex) ∧
      (stW7' = stW7 ∨ ∃ key nd, StoreOp.mutate (some ([] : Bytes)) initialData
          = StoreOp.mutate (some key) nd ∧
        stW7'.enc.ivB64 = (encryptJson envW nd key).iv ∧
        stW7'.enc.ciphertextB64 = (encryptJson envW nd key).ciphertext)) :=
  ⟨fun h => StoreOp.noConfusion h, rfl,
    auth_block_frame envW (StoreOp.mutate (some []) initialData) stW7 stW7'
      (fun h => StoreOp.noConfusion h) rfl⟩

/-- Claim C8 counterexample: a persist attempt that cannot read a stored
record, and one holding no key, both complete silently — the stored record
is unchanged and the reported failure component is none, so nothing surfaces
to the caller. -/
theorem persist_silently_discards_failure :
    persist envW none (some []) initialData = (none, none) ∧
    persist envW (some stW7) none initialData = (some stW7, none) :=
  ⟨rfl, rfl⟩

/-- Claim C8 (amended): whenever persist cannot read the stored record or no
in-memory key is held, it returns with the store unchanged and no reported
error of any kind; the failure is silently discarded rather than surfaced as
a typed failure. -/
theorem persist_early_return (env : CryptoEnv) (store : Store) (key : Option Bytes)
    (nd : Payload) (h : loadState env store = none ∨ key = none) :
    persist env store key nd = (store, none) := by
  rcases h with h | h
  · unfold persist
    rw [h]
  · subst h
    unfold persist
    cases loadState env store <;> rfl

/-- Claim C8 witness: the amended statement evaluated with no stored record. -/
theorem persist_early_return_witness :
    (loadState envW none = none ∨ (some ([] : Bytes)) = none) ∧
    persist envW none (some []) initialData = (none, none) :=
  ⟨Or.inl rfl, persist_early_return envW none (some []) initialData (Or.inl rfl)⟩

end PFVault
